import Mathlib

/-!
# NeuroFlow EEG backend — verification of the spectral / cleaning pipeline

Shallow embedding of `backend/main.py` (NeuroFlow Lab — EEG Backend).
Signal samples are modelled as rationals (`ℚ`): every JSON-borne float value
is a finite-precision rational, and all of the arithmetic the verified claims
depend on (frequency-axis construction, masking, means, guards) is exact
rational/integer arithmetic.  Calls into scipy / MNE (FFT values, designed
filter coefficients, `filtfilt`, Welch PSD values, ICA decomposition) are
out-of-scope black boxes per the spec; they are modelled as parameters, while
everything the repository's own code does with their results (masking,
averaging, padlen guards, ordering, fallbacks) is embedded exactly.

`np.mean` of an empty array is NaN in numpy; scalar results that can be NaN
are modelled as `Option ℚ`, with `none` standing for NaN.
-/

namespace NeuroFlow

/-- A channels × samples array (numpy 2-D array, rows = channels). -/
abbrev Mat (c n : ℕ) := Fin c → Fin n → ℚ

/-! ## Frequency axis and band masking (`compute_band_power`, main.py 74-86) -/

/-- `numpy.fft.fftfreq n d`: sample frequencies `k/(n*d)` for
`k = 0, 1, …, ⌈n/2⌉-1` followed by the negative frequencies
`k - n` for the remaining indices. -/
def fftfreq (n : ℕ) (d : ℚ) : List ℚ :=
  (List.range n).map fun k =>
    (if k ≤ (n - 1) / 2 then (k : ℚ) else (k : ℚ) - (n : ℚ)) / ((n : ℚ) * d)

/-- The default EEG bands of `compute_band_power` (main.py line 77). -/
def defaultBands : List (String × ℚ × ℚ) :=
  [("delta", (1, 4)), ("theta", (4, 8)), ("alpha", (8, 13)),
   ("beta", (13, 30)), ("gamma", (30, 45))]

/-- Positions selected by the boolean mask `(freqs >= low) & (freqs <= high)`
(main.py line 84), walking the frequency list with its index. -/
def maskIdxAux (low high : ℚ) : ℕ → List ℚ → List ℕ
  | _, [] => []
  | k, f :: fs =>
    if low ≤ f ∧ f ≤ high then k :: maskIdxAux low high (k + 1) fs
    else maskIdxAux low high (k + 1) fs

/-- Indices `k` of the boolean mask `(freqs >= low) & (freqs <= high)`
(main.py line 84). -/
def maskIdx (freqs : List ℚ) (low high : ℚ) : List ℕ :=
  maskIdxAux low high 0 freqs

/-- `float(np.mean(Y[:, mask]))` (main.py line 85): the flat mean of the
channels × masked-bins sub-array.  numpy's mean of an empty slice is NaN,
modelled as `none`. -/
def npMeanMasked (c : ℕ) (Y : ℕ → ℕ → ℚ) (idx : List ℕ) : Option ℚ :=
  if c = 0 ∨ idx = [] then none
  else some ((∑ ch ∈ Finset.range c, (idx.map (Y ch)).sum) /
    ((c : ℚ) * (idx.length : ℚ)))

/-- `compute_band_power` (main.py 74-86).  `spectrum n_fft ch k` models the
library call `np.abs(scipy.fft.fft(data, n=n_fft, axis=1))**2 [ch, k]`, the
magnitude-squared FFT of the data — an out-of-scope scipy computation whose
values the function only masks and averages.  For each band the FFT size is
`min 2048 nsamples`, the frequency axis is `fftfreq n_fft (1/fs)`, and the
result is the flat mean of the spectrum over the in-band bins. -/
def compute_band_power (c nsamples : ℕ) (fs : ℚ) (spectrum : ℕ → ℕ → ℕ → ℚ)
    (bands : List (String × ℚ × ℚ) := defaultBands) : List (String × Option ℚ) :=
  let n_fft := min 2048 nsamples
  let freqs := fftfreq n_fft (1 / fs)
  bands.map fun b => (b.1, npMeanMasked c (spectrum n_fft) (maskIdx freqs b.2.1 b.2.2))

/-! ## Filter bank (main.py 611-649)

Filter design (`scipy.signal.butter`, `scipy.signal.iirnotch`) and zero-phase
application (`scipy.signal.filtfilt`) are library calls; the source observes
only the lengths of the designed coefficient arrays (through
`padlen = 3 * max(len(a), len(b))`) before deciding whether to filter at all.
The designs are modelled by their documented coefficient-array lengths, and
`filtfilt` by abstract shape-preserving functions (one per filter type,
parametrised by the same cutoff arguments the source passes to the design). -/

/-- Butterworth design type, `btype` of `scipy.signal.butter`. -/
inductive BType
  | band
  | low
  | high
deriving DecidableEq

/-- Length of each coefficient array returned by `scipy.signal.butter order`:
`2*order + 1` for a band-pass design, `order + 1` for low/high-pass. -/
def butterCoeffLen (order : ℕ) (bt : BType) : ℕ :=
  match bt with
  | .band => 2 * order + 1
  | .low => order + 1
  | .high => order + 1

/-- Length of each coefficient array returned by `scipy.signal.iirnotch`
(a second-order section: 3 numerator and 3 denominator coefficients). -/
def iirnotchCoeffLen : ℕ := 3

/-- `bandpass_filter` (main.py 611-619).  `ff lowcut highcut fs` models
`filtfilt` with the coefficients `butter(order, [low, high], btype='band')`
designed from those arguments; the guard returns the input unchanged when
`data.shape[1] <= padlen`. -/
def bandpass_filter {c n : ℕ} (ff : ℚ → ℚ → ℚ → Mat c n → Mat c n)
    (data : Mat c n) (lowcut highcut fs : ℚ) (order : ℕ := 4) : Mat c n :=
  let padlen := 3 * max (butterCoeffLen order .band) (butterCoeffLen order .band)
  if n ≤ padlen then data else ff lowcut highcut fs data

/-- `lowpass_filter` (main.py 621-628). -/
def lowpass_filter {c n : ℕ} (ff : ℚ → ℚ → Mat c n → Mat c n)
    (data : Mat c n) (cutoff fs : ℚ) (order : ℕ := 4) : Mat c n :=
  let padlen := 3 * max (butterCoeffLen order .low) (butterCoeffLen order .low)
  if n ≤ padlen then data else ff cutoff fs data

/-- `highpass_filter` (main.py 630-637). -/
def highpass_filter {c n : ℕ} (ff : ℚ → ℚ → Mat c n → Mat c n)
    (data : Mat c n) (cutoff fs : ℚ) (order : ℕ := 4) : Mat c n :=
  let padlen := 3 * max (butterCoeffLen order .high) (butterCoeffLen order .high)
  if n ≤ padlen then data else ff cutoff fs data

/-- `notch_filter` (main.py 639-646). -/
def notch_filter {c n : ℕ} (ff : ℚ → ℚ → ℚ → Mat c n → Mat c n)
    (data : Mat c n) (notch_freq fs : ℚ) (quality : ℚ := 30) : Mat c n :=
  let padlen := 3 * max iirnotchCoeffLen iirnotchCoeffLen
  if n ≤ padlen then data else ff notch_freq fs quality data

/-- `baseline_correction` (main.py 648-649):
`data - np.mean(data, axis=1, keepdims=True)`. -/
def baseline_correction {c n : ℕ} (data : Mat c n) : Mat c n :=
  fun i j => data i j - (∑ k, data i k) / (n : ℚ)

/-! ## Artifact removal (`apply_ica`, main.py 730-782) -/

/-- The admissible component count of `apply_ica` (main.py 763-764):
`n_comp = n_components or min(nchan, int(0.95 * min(nchan, nsamples // 3)))`
followed by `n_comp = min(n_comp, nchan - 1, nsamples // 3)`.  Python's `or`
falls back to the default when `n_components` is `None` or `0`; `int(0.95*m)`
truncates toward zero, i.e. takes the floor (ignoring any last-ulp float
rounding of `0.95*m`, which none of the claims exercise). -/
def icaNComp (nchan nsamples : ℕ) (n_components : Option ℕ) : ℕ :=
  let dflt := min nchan ((95 * min nchan (nsamples / 3)) / 100)
  let base :=
    match n_components with
    | none => dflt
    | some 0 => dflt
    | some k => k
  min (min base (nchan - 1)) (nsamples / 3)

/-- Abstract environment for the library calls of the cleaning pipeline:
the four `filtfilt` applications and the MNE ICA stage of `apply_ica`.
`icaPrefilterFails` models whether the `raw.filter(1.0, None)` call raises
(it runs before the component-count check); `icaFit` models the
fit/auto-flag/reconstruct block, returning the reconstructed signal and the
final excluded component indices, or an error when the decomposition raises. -/
structure LibEnv (c n : ℕ) where
  ffBand : ℚ → ℚ → ℚ → Mat c n → Mat c n
  ffLow : ℚ → ℚ → Mat c n → Mat c n
  ffHigh : ℚ → ℚ → Mat c n → Mat c n
  ffNotch : ℚ → ℚ → ℚ → Mat c n → Mat c n
  icaPrefilterFails : Bool
  icaFit : Mat c n → Except Unit (Mat c n × List ℕ)

/-- `apply_ica` (main.py 730-782), observable behaviour: raises when the 1 Hz
pre-filter raises; returns `(data, [], None)` untouched when the admissible
component count is below 2; otherwise runs the ICA fit, whose failure
propagates.  The third component models the returned `ica` object by its only
observable in the endpoints, the final `ica.exclude` list (`none` = the
Python `None` object). -/
def apply_ica {c n : ℕ} (env : LibEnv c n) (data : Mat c n)
    (n_components : Option ℕ) : Except Unit (Mat c n × List ℕ × Option (List ℕ)) :=
  if env.icaPrefilterFails then .error ()
  else if icaNComp c n n_components < 2 then .ok (data, [], none)
  else (env.icaFit data).map fun r => (r.1, r.2, some r.2)

/-! ## Cleaning pipeline (`clean_eeg`, main.py 785-819) -/

/-- The keyword arguments of `clean_eeg`, with the source's defaults
(`notch_freq=50`, everything else off). -/
structure CleanParams where
  bandpass_low : Option ℚ := none
  bandpass_high : Option ℚ := none
  lowpass_freq : Option ℚ := none
  highpass_freq : Option ℚ := none
  notch_freq : Option ℚ := some 50
  ica_enabled : Bool := false

/-- `clean_eeg` (main.py 785-819): bandpass when both cutoffs are given, then
highpass, then lowpass, then notch, then baseline correction, then the
optional ICA stage guarded by `try/except` (on exception the filtered signal
is kept and `ica_obj` stays `None`).  Returns the cleaned array and the
modelled `ica_obj` (its `exclude` list, or `none` for Python `None`). -/
def clean_eeg {c n : ℕ} (env : LibEnv c n) (data : Mat c n) (fs : ℚ)
    (p : CleanParams) : Mat c n × Option (List ℕ) :=
  let f1 :=
    match p.bandpass_low, p.bandpass_high with
    | some lo, some hi => bandpass_filter env.ffBand data lo hi fs
    | _, _ => data
  let f2 :=
    match p.highpass_freq with
    | some cut => highpass_filter env.ffHigh f1 cut fs
    | none => f1
  let f3 :=
    match p.lowpass_freq with
    | some cut => lowpass_filter env.ffLow f2 cut fs
    | none => f2
  let f4 :=
    match p.notch_freq with
    | some nf => notch_filter env.ffNotch f3 nf fs
    | none => f3
  let f5 := baseline_correction f4
  if p.ica_enabled then
    match apply_ica env f5 none with
    | .ok r => (r.1, r.2.2)
    | .error _ => (f5, none)
  else (f5, none)

/-! ## `/clean` endpoint warning (main.py 860-864) -/

/-- The `/clean` endpoint's warning guard: a hard-coded
`padlen = 27  # Conservative default for 4th order Butterworth` compared
against `data.shape[1]`, independent of which filters were requested. -/
def clean_endpoint_warning (nsamples : ℕ) : Bool :=
  decide (nsamples ≤ 27)

/-- Whether some requested filter stage of `clean_eeg` triggers its
short-input no-op guard: the guard of each stage fires when the sample count
is at most `3 * max(len(a), len(b))` for that stage's design, and a stage
runs only when its cutoff parameters are present. -/
def someFilterSkipped (p : CleanParams) (nsamples : ℕ) : Bool :=
  (p.bandpass_low.isSome && p.bandpass_high.isSome &&
    decide (nsamples ≤ 3 * max (butterCoeffLen 4 .band) (butterCoeffLen 4 .band))) ||
  (p.highpass_freq.isSome &&
    decide (nsamples ≤ 3 * max (butterCoeffLen 4 .high) (butterCoeffLen 4 .high))) ||
  (p.lowpass_freq.isSome &&
    decide (nsamples ≤ 3 * max (butterCoeffLen 4 .low) (butterCoeffLen 4 .low))) ||
  (p.notch_freq.isSome && decide (nsamples ≤ 3 * max iirnotchCoeffLen iirnotchCoeffLen))

/-! ## Power spectral density (`compute_psd`, main.py 89-102) -/

/-- The `nperseg` argument `compute_psd` hands to `scipy.signal.welch`
(main.py line 91): `min(nperseg, data.shape[1] // 4 or 64)` — Python's `or`
substitutes 64 only when `data.shape[1] // 4` is zero (falsy). -/
def welchNperseg (nperseg nsamples : ℕ) : ℕ :=
  min nperseg (if nsamples / 4 = 0 then 64 else nsamples / 4)

/-- The segment length as claim C8 words it: 64 used in place of
`floor(nsamples/4)` when the latter is smaller (than 64).  Stated from the
claim's words, to be compared with `welchNperseg`, which follows the source. -/
def claimSegLength (nperseg nsamples : ℕ) : ℕ :=
  min nperseg (if nsamples / 4 < 64 then 64 else nsamples / 4)

/-- The display-downsampling tail of `compute_psd` (main.py 97-101): when
more than `max_points` in-range bins remain, pick `max_points` of them at
indices `int(i * len/max_points)` clamped to the last index, frequencies and
powers at the same positions. -/
def psdSelect (keep : List (ℚ × ℚ)) (max_points : ℕ) : List ℚ × List ℚ :=
  if max_points < keep.length then
    let idx := (List.range max_points).map fun i =>
      min ((i * keep.length) / max_points) (keep.length - 1)
    (idx.map fun i => (keep.getD i (0, 0)).1, idx.map fun i => (keep.getD i (0, 0)).2)
  else (keep.map Prod.fst, keep.map Prod.snd)

/-- `compute_psd` (main.py 89-102).  `psdv ch k` models the Welch PSD value
`welch(data, fs, nperseg=...)[1][ch, k]` (a scipy computation); the frequency
axis of a one-sided Welch transform with segment length `nseg` is
`k * fs / nseg` for `k = 0, …, nseg/2`, and scipy truncates a segment length
larger than the input to the input length.  The function means the PSD across
channels, keeps frequencies in `[0, max_freq]`, and when more than
`max_points` bins remain picks indices `int(i * len/max_points)` (clamped),
modelled with exact integer floor in place of float truncation. -/
def compute_psd (c : ℕ) (psdv : ℕ → ℕ → ℚ) (nsamples : ℕ) (fs : ℚ)
    (nperseg : ℕ := 256) (max_freq : ℚ := 45) (max_points : ℕ := 80) :
    List ℚ × List ℚ :=
  let nseg := min (welchNperseg nperseg nsamples) nsamples
  let pairs := (List.range (nseg / 2 + 1)).map fun (k : ℕ) =>
    ((k : ℚ) * fs / (nseg : ℚ), (∑ ch ∈ Finset.range c, psdv ch k) / (c : ℚ))
  let keep := pairs.filter fun q => decide (0 ≤ q.1 ∧ q.1 ≤ max_freq)
  psdSelect keep max_points

/-! ## Zero-crossing rate (`compute_eeg_metrics`, main.py 198-223) -/

/-- `np.sign`: 1 for positive, -1 for negative, 0 for zero. -/
def npSign (x : ℚ) : ℚ :=
  if 0 < x then 1 else if x < 0 then -1 else 0

/-- One channel's zero-crossing rate (main.py 202-205):
`np.sum(np.abs(np.diff(np.sign(x)))) / (2 * (nsamples - 1))` when
`nsamples > 1`, else `0.0`; `np.diff` pairs each sample with its successor. -/
def zcrChannel (x : List ℚ) : ℚ :=
  if 1 < x.length then
    ((x.zip x.tail).map fun q => |npSign q.2 - npSign q.1|).sum
      / (2 * ((x.length : ℚ) - 1))
  else 0

/-- The channel-mean aggregate `zero_crossing_rate_mean` (main.py 219):
`float(np.mean(zcr))` over the per-channel list. -/
def zcrMean (data : List (List ℚ)) : ℚ :=
  (data.map zcrChannel).sum / (data.length : ℚ)

/-- The number of positions at which the sign changes between consecutive
raw samples — the claim's reading of "count of sign changes". -/
def signChangeCount (x : List ℚ) : ℕ :=
  ((x.zip x.tail).filter fun q => decide (npSign q.1 ≠ npSign q.2)).length

/-! ## Time–frequency spectrogram failure (main.py 105-142, 292-350) -/

/-- Modelled library validation of `scipy.signal.spectrogram`
(its spectral helper): a `nperseg` larger than the input is first truncated
to the input length (with a warning), after which an explicitly passed
`noverlap >= nperseg` raises `ValueError`. -/
def scipySpectrogramRaises (inputLen nperseg noverlap : ℕ) : Prop :=
  min nperseg inputLen ≤ noverlap

instance (i np no : ℕ) : Decidable (scipySpectrogramRaises i np no) :=
  inferInstanceAs (Decidable (_ ≤ _))

/-- Whether the call `spectrogram(sig, fs=fs, nperseg=min(nperseg,
len(sig) // 4 or 64), noverlap=nperseg // 2)` of
`compute_time_freq_spectrogram` (main.py 120-122) raises: the overlap comes
from the uncapped `nperseg`, the segment length from the capped one, and the
channel mean of line 118 leaves `len(sig)` equal to the sample count. -/
def compute_time_freq_spectrogram_raises (nsamples : ℕ) (nperseg : ℕ := 128) : Prop :=
  scipySpectrogramRaises nsamples
    (min nperseg (if nsamples / 4 = 0 then 64 else nsamples / 4)) (nperseg / 2)

instance (n np : ℕ) : Decidable (compute_time_freq_spectrogram_raises n np) :=
  inferInstanceAs (Decidable (scipySpectrogramRaises _ _ _))

/-- `/time-freq-spectrogram` endpoint status (main.py 292-350): 400 for a
non-2-D or empty array, 500 when the wrapped computation raises (the
`except` re-raises as `HTTPException(status_code=500)`), 200 otherwise. -/
def time_freq_endpoint_status (nchan nsamples : ℕ) : ℕ :=
  if nchan = 0 ∨ nsamples = 0 then 400
  else if compute_time_freq_spectrogram_raises nsamples then 500
  else 200

/-! ## Concrete fixtures for the closed instantiations below -/

/-- A library environment whose filters are the identity and whose ICA fit
succeeds returning its input — enough to exercise the repository's own
control flow at concrete inputs. -/
def exEnv (c n : ℕ) : LibEnv c n where
  ffBand := fun _ _ _ m => m
  ffLow := fun _ _ m => m
  ffHigh := fun _ _ m => m
  ffNotch := fun _ _ _ m => m
  icaPrefilterFails := false
  icaFit := fun m => .ok (m, [])

/-- A concrete 2-channel, 9-sample signal. -/
def ex29 : Mat 2 9 := fun i j => (i : ℚ) + (j : ℚ)

/-- A concrete 1-channel, 3-sample signal. -/
def ex13 : Mat 1 3 := fun _ j => (j : ℚ) - 1

end NeuroFlow

namespace NeuroFlow

/-! ## Shared lemmas -/

/-- Every row of a baseline-corrected signal sums to zero. -/
theorem baseline_row_sum_zero {c n : ℕ} (x : Mat c n) (hn : 0 < n) (i : Fin c) :
    (∑ j, baseline_correction x i j) = 0 := by
  have hne : (n : ℚ) ≠ 0 := Nat.cast_ne_zero.mpr hn.ne'
  simp only [baseline_correction, Finset.sum_sub_distrib, Finset.sum_const,
    Finset.card_univ, Fintype.card_fin, nsmul_eq_mul]
  rw [mul_div_cancel₀ _ hne, sub_self]

/-- With artifact removal off, `clean_eeg` is the baseline-corrected
composition of the requested filter stages, in the source's fixed order,
and reports no exclusions. -/
theorem clean_eeg_ica_disabled {c n : ℕ} (env : LibEnv c n) (data : Mat c n)
    (fs : ℚ) (p : CleanParams) (h : p.ica_enabled = false) :
    clean_eeg env data fs p =
      (baseline_correction
        ((fun (x : Mat c n) => match p.notch_freq with
           | some nf => notch_filter env.ffNotch x nf fs
           | none => x)
         ((fun (x : Mat c n) => match p.lowpass_freq with
           | some cut => lowpass_filter env.ffLow x cut fs
           | none => x)
          ((fun (x : Mat c n) => match p.highpass_freq with
           | some cut => highpass_filter env.ffHigh x cut fs
           | none => x)
           (match p.bandpass_low, p.bandpass_high with
            | some lo, some hi => bandpass_filter env.ffBand data lo hi fs
            | _, _ => data)))), none) := by
  unfold clean_eeg
  rw [h]
  rfl

/-! ## Claim C2 -/

/-- C2: for every 2-D input whose sample count is at most the padding
threshold `3 * max(len(a), len(b))` of the designed filter, each of
`bandpass_filter`, `lowpass_filter`, `highpass_filter` and `notch_filter`
returns the input array unchanged (the guard precedes the only fallible
library application, so nothing is raised). -/
theorem C2_short_input_unchanged {c n : ℕ}
    (ffB ffN : ℚ → ℚ → ℚ → Mat c n → Mat c n)
    (ffL ffH : ℚ → ℚ → Mat c n → Mat c n)
    (data : Mat c n) (lo hi cutL cutH fs q : ℚ) :
    (n ≤ 3 * max (butterCoeffLen 4 .band) (butterCoeffLen 4 .band) →
      bandpass_filter ffB data lo hi fs = data) ∧
    (n ≤ 3 * max (butterCoeffLen 4 .low) (butterCoeffLen 4 .low) →
      lowpass_filter ffL data cutL fs = data) ∧
    (n ≤ 3 * max (butterCoeffLen 4 .high) (butterCoeffLen 4 .high) →
      highpass_filter ffH data cutH fs = data) ∧
    (n ≤ 3 * max iirnotchCoeffLen iirnotchCoeffLen →
      notch_filter ffN data q fs = data) := by
  refine ⟨fun h => ?_, fun h => ?_, fun h => ?_, fun h => ?_⟩ <;>
    simp_all [bandpass_filter, lowpass_filter, highpass_filter, notch_filter]

/-- C2 witness: at 2 channels × 9 samples (9 is at most every threshold:
27 for bandpass, 15 for low/high-pass, 9 for notch) all four filters return
the input unchanged. -/
theorem C2_short_input_unchanged_witness :
    (bandpass_filter (exEnv 2 9).ffBand ex29 1 45 160 = ex29) ∧
    (lowpass_filter (exEnv 2 9).ffLow ex29 45 160 = ex29) ∧
    (highpass_filter (exEnv 2 9).ffHigh ex29 5 160 = ex29) ∧
    (notch_filter (exEnv 2 9).ffNotch ex29 50 160 = ex29) := by
  have t := C2_short_input_unchanged (exEnv 2 9).ffBand (exEnv 2 9).ffNotch
    (exEnv 2 9).ffLow (exEnv 2 9).ffHigh ex29 1 45 45 5 160 50
  exact ⟨t.1 (by decide), t.2.1 (by decide), t.2.2.1 (by decide), t.2.2.2 (by decide)⟩

/-! ## Claim C3 -/

/-- C3: before the optional artifact-removal stage, `clean_eeg` equals the
composition of the filter-bank stages in the fixed order: bandpass first and
only when both cutoffs are given, then highpass, then lowpass, then notch
when `notch_freq` is given, then baseline correction always — for every
combination of parameters (the order is not configurable by the caller). -/
theorem C3_fixed_filter_order {c n : ℕ} (env : LibEnv c n) (data : Mat c n)
    (fs : ℚ) (p : CleanParams) (h : p.ica_enabled = false) :
    clean_eeg env data fs p =
      (baseline_correction
        ((fun (x : Mat c n) => match p.notch_freq with
           | some nf => notch_filter env.ffNotch x nf fs
           | none => x)
         ((fun (x : Mat c n) => match p.lowpass_freq with
           | some cut => lowpass_filter env.ffLow x cut fs
           | none => x)
          ((fun (x : Mat c n) => match p.highpass_freq with
           | some cut => highpass_filter env.ffHigh x cut fs
           | none => x)
           (match p.bandpass_low, p.bandpass_high with
            | some lo, some hi => bandpass_filter env.ffBand data lo hi fs
            | _, _ => data)))), none) :=
  clean_eeg_ica_disabled env data fs p h

/-- C3 witness: with the source's default parameters (only the 50 Hz notch
on) on a concrete 1 × 3 signal, the pipeline is notch then baseline. -/
theorem C3_fixed_filter_order_witness :
    clean_eeg (exEnv 1 3) ex13 160 {} =
      (baseline_correction (notch_filter (exEnv 1 3).ffNotch ex13 50 160), none) :=
  C3_fixed_filter_order (exEnv 1 3) ex13 160 {} rfl

/-! ## Claim C4 -/

/-- C4: when artifact removal is enabled and the stage fails — the ICA call
raises (modelled: the 1 Hz pre-filter or the decomposition errors) or the
admissible component count `min(default n_components, nchan-1, nsamples/3)`
is below 2 — `clean_eeg` does not abort: it returns exactly the signal the
filtering and baseline stages produced, and reports no excluded components
(`ica_obj` is `None`). -/
theorem C4_ica_fallback {c n : ℕ} (env : LibEnv c n) (data : Mat c n) (fs : ℚ)
    (p : CleanParams) (h : p.ica_enabled = true)
    (hfail : icaNComp c n none < 2 ∨ env.icaPrefilterFails = true ∨
      env.icaFit (clean_eeg env data fs { p with ica_enabled := false }).1 = .error ()) :
    clean_eeg env data fs p =
      ((clean_eeg env data fs { p with ica_enabled := false }).1, none) := by
  rw [clean_eeg_ica_disabled env data fs { p with ica_enabled := false } rfl] at hfail ⊢
  unfold clean_eeg
  rw [h]
  simp only [apply_ica]
  by_cases hpf : env.icaPrefilterFails
  · simp [hpf]
  · simp only [hpf, Bool.false_eq_true, if_false, if_true]
    by_cases hcomp : icaNComp c n none < 2
    · simp [hcomp]
    · rcases hfail with h1 | h2 | h3
      · exact absurd h1 hcomp
      · exact absurd h2 (by simp [hpf])
      · simp only [hcomp, if_false]
        rw [h3]
        rfl

/-- C4 witness: a 1-channel signal admits at most 0 components
(`min(default, 1-1, 3/3) = 0 < 2`), so with ICA enabled the output is the
filtered, baseline-corrected signal and no exclusions are reported. -/
theorem C4_ica_fallback_witness :
    clean_eeg (exEnv 1 3) ex13 160 { ica_enabled := true } =
      ((clean_eeg (exEnv 1 3) ex13 160
        { ({ ica_enabled := true } : CleanParams) with ica_enabled := false }).1,
       none) :=
  C4_ica_fallback (exEnv 1 3) ex13 160 { ica_enabled := true } rfl (Or.inl (by decide))

/-! ## Claim C6 -/

/-- C6: `baseline_correction` subtracts each channel's own mean, so every
row of its output has exact mean 0, and — being applied unconditionally as
the final filtering step — every row of the cleaning pipeline's
(pre-artifact-removal) output has exact mean 0, whatever filters were
requested. -/
theorem C6_baseline_zero_mean {c n : ℕ} (env : LibEnv c n) (data : Mat c n)
    (fs : ℚ) (p : CleanParams) (hn : 0 < n) (hica : p.ica_enabled = false)
    (i : Fin c) :
    (∑ j, baseline_correction data i j) / (n : ℚ) = 0 ∧
    (∑ j, (clean_eeg env data fs p).1 i j) / (n : ℚ) = 0 := by
  refine ⟨by rw [baseline_row_sum_zero data hn i, zero_div], ?_⟩
  rw [clean_eeg_ica_disabled env data fs p hica]
  rw [baseline_row_sum_zero _ hn i, zero_div]

/-- C6 witness: on the concrete 1 × 3 signal with default parameters, both
the directly baseline-corrected row and the cleaned row have mean 0. -/
theorem C6_baseline_zero_mean_witness :
    (∑ j, baseline_correction ex13 ⟨0, Nat.zero_lt_one⟩ j) / (3 : ℚ) = 0 ∧
    (∑ j, (clean_eeg (exEnv 1 3) ex13 160 {}).1 ⟨0, Nat.zero_lt_one⟩ j) / (3 : ℚ) = 0 :=
  C6_baseline_zero_mean (exEnv 1 3) ex13 160 {} (by decide) rfl ⟨0, Nat.zero_lt_one⟩

/-! ## Claim C7 -/

/-- C7 counterexample: with only the notch filter requested and 20 samples,
the `/clean` endpoint's warning is present (20 ≤ 27) although no requested
stage's short-input guard fires (the notch guard needs ≤ 9 samples), so the
warning is not equivalent to "some applied filter returned its input
unchanged under the short-input policy". -/
theorem C7_warning_counterexample :
    ¬ (clean_endpoint_warning 20 = true ↔
        someFilterSkipped { notch_freq := some 50 } 20 = true) := by
  decide

/-- C7 amended: the warning is present exactly when the sample count is at
most the hard-coded conservative bandpass padding length 27, independently
of which filters were requested; since every stage's threshold is at most
27, a skipped stage always comes with a warning, but the warning can also
appear when no requested stage was skipped. -/
theorem C7_warning_threshold (p : CleanParams) (nsamples : ℕ) :
    (clean_endpoint_warning nsamples = true ↔ nsamples ≤ 27) ∧
    (someFilterSkipped p nsamples = true → clean_endpoint_warning nsamples = true) := by
  constructor
  · simp [clean_endpoint_warning]
  · intro h
    simp only [someFilterSkipped, butterCoeffLen, iirnotchCoeffLen, Bool.or_eq_true,
      Bool.and_eq_true, decide_eq_true_eq] at h
    simp only [clean_endpoint_warning, decide_eq_true_eq]
    rcases h with ((h | h) | h) | h
    all_goals have hle := h.2
    all_goals omega

/-- C7 amended witness: with the notch filter requested on a 9-sample input
the notch stage is skipped, and the warning is indeed present. -/
theorem C7_warning_threshold_witness :
    clean_endpoint_warning 9 = true :=
  (C7_warning_threshold { notch_freq := some 50 } 9).2 (by decide)

/-! ## Claim C10 -/

/-- C10: with the default `nperseg = 128`, `compute_time_freq_spectrogram`
raises for every non-empty input of at most 259 samples — the overlap
`nperseg // 2 = 64` computed from the uncapped `nperseg` is at least the
capped segment length `min(128, nsamples // 4 or 64)` (truncated by scipy to
the input length) — and the `/time-freq-spectrogram` endpoint returns a 500
for such otherwise-valid inputs. -/
theorem C10_spectrogram_short_raises (nchan nsamples : ℕ) (hc : 0 < nchan)
    (h1 : 1 ≤ nsamples) (h2 : nsamples ≤ 259) :
    compute_time_freq_spectrogram_raises nsamples ∧
    time_freq_endpoint_status nchan nsamples = 500 := by
  have hr : compute_time_freq_spectrogram_raises nsamples := by
    unfold compute_time_freq_spectrogram_raises scipySpectrogramRaises
    by_cases h4 : nsamples / 4 = 0 <;> simp only [h4, if_true, if_false] <;> omega
  refine ⟨hr, ?_⟩
  unfold time_freq_endpoint_status
  rw [if_neg (by omega), if_pos hr]

/-- C10 witness: a 1-channel, 100-sample input raises and yields a 500. -/
theorem C10_spectrogram_short_raises_witness :
    compute_time_freq_spectrogram_raises 100 ∧
    time_freq_endpoint_status 1 100 = 500 :=
  C10_spectrogram_short_raises 1 100 (by decide) (by decide) (by decide)

/-! ## Claim C8 -/

/-- Membership in the `[0, max_freq]`-filtered pair list yields both
frequency bounds. -/
theorem mem_psd_filter_bounds {q : ℚ × ℚ} {l : List (ℚ × ℚ)} {mf : ℚ}
    (h : q ∈ l.filter fun r => decide (0 ≤ r.1 ∧ r.1 ≤ mf)) :
    0 ≤ q.1 ∧ q.1 ≤ mf := by
  have := (List.mem_filter.mp h).2
  simpa using this

/-- Every frequency `psdSelect` returns comes from the kept pair list. -/
theorem psdSelect_fst_mem (keep : List (ℚ × ℚ)) (mp : ℕ) {x : ℚ}
    (hx : x ∈ (psdSelect keep mp).1) : ∃ q ∈ keep, q.1 = x := by
  unfold psdSelect at hx
  by_cases hlt : mp < keep.length
  · rw [if_pos hlt] at hx
    simp only [List.mem_map, List.mem_range] at hx
    obtain ⟨i, ⟨j, hj, rfl⟩, rfl⟩ := hx
    have hmin : min ((j * keep.length) / mp) (keep.length - 1) ≤ keep.length - 1 :=
      Nat.min_le_right _ _
    have hlen : min ((j * keep.length) / mp) (keep.length - 1) < keep.length := by omega
    refine ⟨_, ?_, rfl⟩
    rw [List.getD_eq_getElem _ _ hlen]
    exact List.getElem_mem _
  · rw [if_neg hlt] at hx
    obtain ⟨q, hq, rfl⟩ := List.mem_map.mp hx
    exact ⟨q, hq, rfl⟩

/-- `psdSelect` returns at most `max_points` points, frequencies and powers
in step. -/
theorem psdSelect_lengths (keep : List (ℚ × ℚ)) (mp : ℕ) :
    (psdSelect keep mp).1.length ≤ mp ∧
    (psdSelect keep mp).2.length = (psdSelect keep mp).1.length := by
  unfold psdSelect
  by_cases hlt : mp < keep.length
  · simp [hlt]
  · simp only [hlt, if_false]
    simp
    omega

/-- C8 counterexample: at 100 samples, `floor(100/4) = 25` is nonzero, so the
source passes segment length `min(256, 25) = 25` to Welch, while the claim's
formula — 64 in place of `floor(nsamples/4)` whenever the latter is smaller —
gives 64. -/
theorem C8_nperseg_counterexample :
    welchNperseg 256 100 = 25 ∧ claimSegLength 256 100 = 64 ∧
      welchNperseg 256 100 ≠ claimSegLength 256 100 := by
  decide

/-- C8 amended: 64 replaces `floor(nsamples/4)` only when the latter is zero
(fewer than 4 samples), not whenever it is smaller than 64; with that
segment length the result is the channel-mean PSD restricted to frequencies
in `[0, max_freq]`, downsampled by uniform index stride to at most
`max_points` points, powers in step with frequencies. -/
theorem C8_psd_structure (c : ℕ) (psdv : ℕ → ℕ → ℚ) (nsamples : ℕ) (fs : ℚ)
    (nperseg max_points : ℕ) (max_freq : ℚ) :
    (welchNperseg nperseg nsamples =
      if nsamples / 4 = 0 then min nperseg 64 else min nperseg (nsamples / 4)) ∧
    (∀ x ∈ (compute_psd c psdv nsamples fs nperseg max_freq max_points).1,
      0 ≤ x ∧ x ≤ max_freq) ∧
    (compute_psd c psdv nsamples fs nperseg max_freq max_points).1.length ≤ max_points ∧
    (compute_psd c psdv nsamples fs nperseg max_freq max_points).2.length =
      (compute_psd c psdv nsamples fs nperseg max_freq max_points).1.length := by
  refine ⟨?_, ?_, (psdSelect_lengths _ _).1, (psdSelect_lengths _ _).2⟩
  · unfold welchNperseg
    split <;> rfl
  · intro x hx
    obtain ⟨q, hq, rfl⟩ := psdSelect_fst_mem _ _ hx
    exact mem_psd_filter_bounds hq

/-! ## Claim C9 -/

/-- For nonzero samples the absolute sign difference is 2 at a sign change
and 0 otherwise. -/
theorem abs_npSign_sub (u v : ℚ) (hu : u ≠ 0) (hv : v ≠ 0) :
    |npSign v - npSign u| = if npSign u ≠ npSign v then 2 else 0 := by
  unfold npSign
  rcases lt_trichotomy 0 u with h | h | h <;> rcases lt_trichotomy 0 v with h2 | h2 | h2 <;>
    first
      | exact absurd h.symm hu
      | exact absurd h2.symm hv
      | simp [h, h2, not_lt_of_gt, abs_of_nonneg, abs_of_nonpos] <;> norm_num

/-- Over pairs of nonzero samples, the summed absolute sign differences are
twice the number of sign-change positions. -/
theorem sum_abs_sign_pairs (l : List (ℚ × ℚ)) (h : ∀ q ∈ l, q.1 ≠ 0 ∧ q.2 ≠ 0) :
    (l.map fun q => |npSign q.2 - npSign q.1|).sum =
      2 * (((l.filter fun q => decide (npSign q.1 ≠ npSign q.2)).length : ℕ) : ℚ) := by
  induction l with
  | nil => simp
  | cons q t ih =>
    have hq := h q (List.mem_cons_self q t)
    have ht := ih fun r hr => h r (List.mem_cons_of_mem q hr)
    by_cases hne : npSign q.1 ≠ npSign q.2
    · simp [List.filter_cons, hne, abs_npSign_sub q.1 q.2 hq.1 hq.2, ht]
      ring
    · simp [List.filter_cons, hne, abs_npSign_sub q.1 q.2 hq.1 hq.2, ht]

/-- C9 counterexample: on the two-sample channel `[1, -1]` the code's rate is
`|(-1) - 1| / (2·1) = 1`, whereas "the count of sign changes divided by
2×(n−1)" is `1/2`. -/
theorem C9_zcr_counterexample :
    zcrChannel [1, -1] = 1 ∧
    ((signChangeCount [1, -1] : ℚ) / (2 * (((2 : ℕ) : ℚ) - 1)) = 1 / 2) ∧
    (1 : ℚ) ≠ 1 / 2 := by
  refine ⟨?_, ?_, by norm_num⟩
  · norm_num [zcrChannel, npSign]
  · norm_num [signChangeCount, npSign, List.filter]

/-- C9 amended: the reported rate is the sum of absolute differences of
consecutive signs divided by 2×(n−1); for a channel with no zero samples
this equals the count of sign-change positions divided by (n−1) — twice the
claimed value — it is 0 when n = 1, and the aggregate is the mean of the
per-channel rates. -/
theorem C9_zcr_amended (x : List ℚ) (a : ℚ) (d : List (List ℚ))
    (h1 : 1 < x.length) (hnz : ∀ v ∈ x, v ≠ 0) :
    zcrChannel x = (signChangeCount x : ℚ) / ((x.length : ℚ) - 1) ∧
    zcrChannel [a] = 0 ∧
    zcrMean d = (d.map zcrChannel).sum / (d.length : ℚ) := by
  refine ⟨?_, by simp [zcrChannel], rfl⟩
  have hpair : ∀ q ∈ x.zip x.tail, q.1 ≠ 0 ∧ q.2 ≠ 0 := by
    intro q hq
    have := List.of_mem_zip hq
    exact ⟨hnz q.1 this.1, hnz q.2 (List.mem_of_mem_tail this.2)⟩
  rw [zcrChannel, if_pos h1, sum_abs_sign_pairs _ hpair, signChangeCount]
  exact mul_div_mul_left _ _ two_ne_zero

/-- C9 amended witness: on `[1, -1, 2]` (two sign changes, three samples)
the rate is `2/2 = 1`, a single sample gives 0, and the aggregate over one
channel is that channel's rate. -/
theorem C9_zcr_amended_witness :
    zcrChannel [1, -1, 2] = (signChangeCount [1, -1, 2] : ℚ) /
      ((([1, -1, 2] : List ℚ).length : ℚ) - 1) ∧
    zcrChannel [(5 : ℚ)] = 0 ∧
    zcrMean [[1, -1, 2]] = ([[1, -1, 2]].map zcrChannel).sum /
      (([[1, -1, 2]] : List (List ℚ)).length : ℚ) :=
  C9_zcr_amended [1, -1, 2] 5 [[1, -1, 2]] (by decide) (by norm_num)

/-! ## Claims C1 and C5 -/

/-- A fixture spectrum (channel + bin index) for concrete instantiations. -/
def exSpec : ℕ → ℕ → ℕ → ℚ := fun _ ch k => (ch : ℚ) + (k : ℚ)

/-- The flat masked mean is a finite `some` value whenever there is at least
one channel and one in-band bin. -/
theorem npMeanMasked_eq_some {c : ℕ} (Y : ℕ → ℕ → ℚ) {idx : List ℕ}
    (hc : c ≠ 0) (hidx : idx ≠ []) :
    npMeanMasked c Y idx =
      some ((∑ ch ∈ Finset.range c, (idx.map (Y ch)).sum) /
        ((c : ℚ) * (idx.length : ℚ))) := by
  unfold npMeanMasked
  rw [if_neg]
  push_neg
  exact ⟨hc, hidx⟩

/-- C1 counterexample: at fs = 50 Hz the Nyquist frequency is 25 Hz, so with
a 16-sample signal no FFT bin falls in the gamma band 30–45 Hz, and
`compute_band_power` returns NaN (`np.mean` of an empty slice, modelled
`none`) for gamma instead of a finite scalar — whatever the spectrum values
(here: a 1-channel zero spectrum). -/
theorem C1_band_power_nan_counterexample :
    ("gamma", (none : Option ℚ)) ∈ compute_band_power 1 16 50 fun _ _ _ => 0 := by
  norm_num [compute_band_power, defaultBands, fftfreq, maskIdx, maskIdxAux,
    npMeanMasked, List.range_succ]

/-- C1 amended: for a non-empty signal, every pipeline value
`compute_band_power` computes over a band whose [low, high] range contains
at least one FFT bin of `fftfreq (min 2048 nsamples) (1/fs)` is a finite
scalar; a band with no in-band bin (e.g. gamma 30–45 Hz at fs = 50, where
Nyquist = 25 Hz < 30 Hz) instead yields NaN, as the counterexample shows. -/
theorem C1_band_power_finite (c nsamples : ℕ) (fs : ℚ)
    (spectrum : ℕ → ℕ → ℕ → ℚ) (name : String) (low high : ℚ)
    (hmem : (name, low, high) ∈ defaultBands) (hc : c ≠ 0)
    (hmask : maskIdx (fftfreq (min 2048 nsamples) (1 / fs)) low high ≠ []) :
    ∃ q : ℚ, (name, some q) ∈ compute_band_power c nsamples fs spectrum := by
  have h := List.mem_map_of_mem
    (f := fun b : String × ℚ × ℚ => (b.1,
      npMeanMasked c (spectrum (min 2048 nsamples))
        (maskIdx (fftfreq (min 2048 nsamples) (1 / fs)) b.2.1 b.2.2))) hmem
  simp only at h
  rw [npMeanMasked_eq_some (spectrum (min 2048 nsamples)) hc hmask] at h
  exact ⟨_, h⟩

/-- C1 amended witness: at fs = 50 Hz and 16 samples the theta band 4–8 Hz
contains the bin 6.25 Hz, so its entry is finite. -/
theorem C1_band_power_finite_witness :
    ∃ q : ℚ, ("theta", some q) ∈ compute_band_power 1 16 50 fun _ _ _ => 0 :=
  C1_band_power_finite 1 16 50 (fun _ _ _ => 0) "theta" 4 8
    (by simp [defaultBands]) (by decide)
    (by norm_num [maskIdx, maskIdxAux, fftfreq, List.range_succ])

/-- C5: for each named band of the fixed partition with at least one in-band
FFT bin (FFT size `min 2048 nsamples`), the value `compute_band_power`
returns — the flat mean over the channel × in-band-bin sub-array — equals
the per-channel mean of the magnitude-squared FFT over the in-band bins
averaged across channels, one scalar per band. -/
theorem C5_band_power_channel_mean (c nsamples : ℕ) (fs : ℚ)
    (spectrum : ℕ → ℕ → ℕ → ℚ) (name : String) (low high : ℚ)
    (hmem : (name, low, high) ∈ defaultBands) (hc : c ≠ 0)
    (hmask : maskIdx (fftfreq (min 2048 nsamples) (1 / fs)) low high ≠ []) :
    (name, some ((∑ ch ∈ Finset.range c,
        ((maskIdx (fftfreq (min 2048 nsamples) (1 / fs)) low high).map
          (spectrum (min 2048 nsamples) ch)).sum /
        (((maskIdx (fftfreq (min 2048 nsamples) (1 / fs)) low high).length : ℕ) : ℚ)) /
      (c : ℚ)))
      ∈ compute_band_power c nsamples fs spectrum := by
  have halg : (∑ ch ∈ Finset.range c,
        ((maskIdx (fftfreq (min 2048 nsamples) (1 / fs)) low high).map
          (spectrum (min 2048 nsamples) ch)).sum /
        (((maskIdx (fftfreq (min 2048 nsamples) (1 / fs)) low high).length : ℕ) : ℚ)) /
      (c : ℚ) =
      (∑ ch ∈ Finset.range c,
        ((maskIdx (fftfreq (min 2048 nsamples) (1 / fs)) low high).map
          (spectrum (min 2048 nsamples) ch)).sum) /
      ((c : ℚ) * (((maskIdx (fftfreq (min 2048 nsamples) (1 / fs)) low high).length : ℕ) : ℚ)) := by
    rw [← Finset.sum_div, div_div, mul_comm]
  rw [halg]
  have h := List.mem_map_of_mem
    (f := fun b : String × ℚ × ℚ => (b.1,
      npMeanMasked c (spectrum (min 2048 nsamples))
        (maskIdx (fftfreq (min 2048 nsamples) (1 / fs)) b.2.1 b.2.2))) hmem
  simp only at h
  rw [npMeanMasked_eq_some (spectrum (min 2048 nsamples)) hc hmask] at h
  exact h

/-- C5 witness: the alpha band 8–13 Hz at fs = 50 Hz and 16 samples contains
the bin 12.5 Hz; on a concrete 2-channel spectrum the returned value is the
mean of the two per-channel in-band means. -/
theorem C5_band_power_channel_mean_witness :
    ("alpha", some ((∑ ch ∈ Finset.range 2,
        ((maskIdx (fftfreq (min 2048 16) (1 / 50)) 8 13).map
          (exSpec (min 2048 16) ch)).sum /
        (((maskIdx (fftfreq (min 2048 16) (1 / 50)) 8 13).length : ℕ) : ℚ)) /
      ((2 : ℕ) : ℚ)))
      ∈ compute_band_power 2 16 50 exSpec :=
  C5_band_power_channel_mean 2 16 50 exSpec "alpha" 8 13
    (by simp [defaultBands]) (by decide)
    (by norm_num [maskIdx, maskIdxAux, fftfreq, List.range_succ]
        decide)

end NeuroFlow
